import Mathlib

/-!
Verification development for the ACS Edge Deployment operator
(`EdgeDeploy` class): the cluster-provisioning saga, the readiness
verification scan, and the secret-sealing delegation endpoints.

The JavaScript source is embedded shallowly:
* manifest documents are structures with `Option` fields mirroring the
  presence/absence of the corresponding JS object properties;
* the readiness scan `cluster_has_git_creds` is a pure function into
  `Except String Bool`, where `.error` models a thrown `TypeError`
  (the JS code accesses `sealed.spec.encryptedData` and uses the `in`
  operator without optional chaining, so absent fields throw);
* the HTTP handlers are written in a small writer/exception monad `M`
  that records every collaborator call as an `Event`, so that ordering
  and side-effect claims become statements about the recorded trace.
-/

/-! ## Manifest documents -/

/-- The key set of a `spec.encryptedData` object of a SealedSecret
manifest, together with presence of the `spec` and `encryptedData`
properties themselves.  `encryptedData?` is `none` when the property is
absent on `spec`. -/
structure SealedSpec where
  encryptedData? : Option (List String)
  deriving Repr, DecidableEq

/-- A SealedSecret manifest document.  `spec?` is `none` when the
document has no `spec` property. -/
structure SealedSecretDoc where
  spec? : Option SealedSpec
  deriving Repr, DecidableEq

/-- The `secretRef` object of a GitRepository manifest spec; `name?` is
`none` when the `name` property is absent or null. -/
structure SecretRef where
  name? : Option String
  deriving Repr, DecidableEq

/-- The `spec` of a GitRepository manifest: the Git URL and the optional
`secretRef`. -/
structure GitRepoSpec where
  url : String
  secretRef? : Option SecretRef
  deriving Repr, DecidableEq

/-- A GitRepository manifest document; `spec?` is `none` when the
document has no `spec` property. -/
structure GitRepoDoc where
  spec? : Option GitRepoSpec
  deriving Repr, DecidableEq

/-- The JS optional chain `gitr.spec?.secretRef?.name` (filtered with
`i != null` by the caller): absent anywhere gives `none`. -/
def GitRepoDoc.secretRefName (d : GitRepoDoc) : Option String :=
  (d.spec?.bind (·.secretRef?)).bind (·.name?)

/-- The fixed namespace literal `flux-system`. -/
def FLUX_NS : String := "flux-system"

/-! ## Checkout contents, as seen by the readiness scan

The `Checkout` collaborator (`checkout.js`, external to the core) is a
read view of a cloned repository.  The scan only lists and reads
`GitRepository` and `SealedSecret` manifests in the `flux-system`
namespace, so the checkout is embedded as those two association lists;
`list_manifests` enumerates the names of the first, `read_manifest`
looks a name up. -/
structure Checkout where
  gitRepos : List (String × GitRepoDoc)
  sealedSecrets : List (String × SealedSecretDoc)
  deriving Repr, DecidableEq

/-- The secret names referenced by the GitRepository manifests: each
document's `spec?.secretRef?.name`, with null/absent results filtered
out (`list.filter(i => i != null)` in the source). -/
def Checkout.secretNames (co : Checkout) : List String :=
  (co.gitRepos.map (fun p => p.2.secretRefName)).filterMap id

/-- One iteration of the scan loop body for a referenced secret name
`sname`:
* no SealedSecret of that name ⇒ `ok false` (logged, loop returns);
* `sealed.spec` absent ⇒ the JS `sealed.spec.encryptedData` access
  throws a TypeError (no optional chaining in the source here);
* `spec.encryptedData` absent ⇒ the JS `"bearerToken" in enc` throws;
* otherwise `ok` of the credential-shape check
  `("bearerToken" in enc) || ("username" in enc && "password" in enc)`. -/
def Checkout.checkSealed (co : Checkout) (sname : String) : Except String Bool :=
  match co.sealedSecrets.lookup sname with
  | none => .ok false
  | some sealed =>
    match sealed.spec? with
    | none => .error "TypeError: cannot read encryptedData of undefined"
    | some sp =>
      match sp.encryptedData? with
      | none => .error "TypeError: cannot use in operator on undefined"
      | some keys =>
        .ok (keys.contains "bearerToken" ||
             (keys.contains "username" && keys.contains "password"))

/-- The scan loop `for (const sname of secrets) { ... }`: stops with
`false` at the first missing or credential-less secret, propagates a
thrown TypeError, and yields `true` when the list is exhausted. -/
def Checkout.checkAllSecrets (co : Checkout) : List String → Except String Bool
  | [] => .ok true
  | s :: rest =>
    match co.checkSealed s with
    | .error e => .error e
    | .ok true => co.checkAllSecrets rest
    | .ok false => .ok false

/-- `cluster_has_git_creds(co)` from the source: list every
GitRepository manifest in `flux-system`, collect the non-null
`spec?.secretRef?.name` values, and run the loop over them. -/
def cluster_has_git_creds (co : Checkout) : Except String Bool :=
  co.checkAllSecrets co.secretNames

/-! ## The readiness condition, stated from the specification's words

For claim C1 the right-hand side of the readiness equivalence is
written directly from the spec sentence: every GitRepository manifest
that specifies `spec.secretRef.name` is matched by a SealedSecret of
the same name whose `spec.encryptedData` key set contains
`bearerToken`, or contains both `username` and `password`. -/

/-- The accepted credential shapes, on a key set (spec §3 / §4.2 step 5). -/
def credsPresent (keys : List String) : Prop :=
  "bearerToken" ∈ keys ∨ ("username" ∈ keys ∧ "password" ∈ keys)

instance (keys : List String) : Decidable (credsPresent keys) := by
  unfold credsPresent; infer_instance

/-- A referenced secret name is matched by a well-formed SealedSecret
carrying an accepted credential shape. -/
def Checkout.secretOk (co : Checkout) (sname : String) : Prop :=
  ∃ sealed, co.sealedSecrets.lookup sname = some sealed ∧
    ∃ sp, sealed.spec? = some sp ∧
      ∃ keys, sp.encryptedData? = some keys ∧ credsPresent keys

/-- Spec-side readiness: every GitRepository manifest in `flux-system`
that specifies a `spec.secretRef.name` is matched by a credentialed
SealedSecret of that name; manifests with no secret reference are
ignored. -/
def Checkout.allReposCredentialed (co : Checkout) : Prop :=
  ∀ p ∈ co.gitRepos, ∀ s, p.2.secretRefName = some s → co.secretOk s

/-! ## Identifiers from `uuids.js`

`uuids.js` is imported by the source but is not part of the core under
study; the identifiers below are symbolic labels standing for the UUID
constants it exports (only their distinctness matters to the claims). -/

namespace UUIDs

def Null : String := "00000000-0000-0000-0000-000000000000"

namespace App

def Info : String := "uuid:App.Info"

end App

end UUIDs

namespace Edge

namespace Perm

def Clusters : String := "uuid:Edge.Perm.Clusters"

def Secrets : String := "uuid:Edge.Perm.Secrets"

end Perm

namespace App

def Cluster : String := "uuid:Edge.App.Cluster"

end App

namespace Class

def Cluster : String := "uuid:Edge.Class.Cluster"

end Class

end Edge

namespace Git

namespace Service

def Git : String := "uuid:Git.Service.Git"

end Service

end Git

/-! ## Collaborator events

Every call the orchestrator makes to a collaborator (Git hosting
service, ConfigDB registry, checkout, sealer, discovery, access
control) is recorded as one `Event`.  Claims about ordering and about
"zero collaborator side effects" are statements about the recorded
event trace. -/

/-- A value written to the ConfigDB registry by `put_config`. -/
inductive ConfigVal where
  /-- the `Info` application record `{ name }` -/
  | infoVal (name : String)
  /-- the `Cluster` application record `{ flux, namespace, kubeseal_cert }` -/
  | clusterVal (flux nspace cert : String)
  deriving Repr, DecidableEq

/-- A manifest document produced by the manifest templates.
Modelled from the spec: `manifests.js` is not under `src/`; §2 calls its
exports pure functions producing a repository-source (`git_repo`) or
kustomization (`flux_kust`) document from namespace/name/URL
parameters. -/
inductive ManifestDoc where
  | gitRepoM (nspace name url : String)
  | fluxKustM (nspace name src : String)
  deriving Repr, DecidableEq

/-- One collaborator call made by the orchestrator. -/
inductive Event where
  | checkAcl (perm target : String) (isExact : Bool)
  | createRepoCall (path : String)
  | createObject (klass : String)
  | putConfig (app obj : String) (v : ConfigVal)
  | getConfigCall (app obj : String)
  | checkoutClone (url : String)
  | checkoutInit (url : String)
  | writeFile (path content : String)
  | commit (msg : String)
  | writeManifest (m : ManifestDoc)
  | push
  | dispose
  | serviceUrl (svc : String)
  | listManifests (nspace kind : String)
  | writeSealedSecret (nspace name key content : String)
  | sealSecret (cluster nspace name key : String) (dryrun : Bool)
  | deleteSecret (cluster nspace name key : String) (dryrun : Bool)
  deriving Repr, DecidableEq

/-- The `Cluster` application config record held by the registry. -/
structure ClusterConfig where
  flux : String
  nspace : String
  kubeseal_cert : String
  deriving Repr, DecidableEq

/-- The record returned by the Git hosting service on repo creation. -/
structure RepoRec where
  path : String
  url : String
  deriving Repr, DecidableEq

/-- The per-request environment: the answers every collaborator would
give during this request.  `fails` is a failure oracle: a call whose
event it selects rejects (models a collaborator throwing). -/
structure Env where
  group : String
  checkAcl : String → String → Bool → Bool
  getConfig : String → String → Option ClusterConfig
  clone : String → Checkout
  gitStatus : Nat
  gitRepo : RepoRec
  newUuid : String
  gitBase : String
  fails : Event → Bool
  sealStatus : Nat
  deleteStatus : Nat

/-! ## The handler monad: exceptions plus an event trace -/

/-- Computation recording an event trace and possibly throwing. -/
def M (α : Type) : Type := List Event → Except String α × List Event

instance : Monad M where
  pure a := fun t => (.ok a, t)
  bind x f := fun t =>
    match x t with
    | (.ok a, t2) => f a t2
    | (.error e, t2) => (.error e, t2)

namespace M

/-- Record one collaborator call. -/
def emit (e : Event) : M Unit := fun t => (.ok (), t ++ [e])

/-- A thrown value. -/
def throwE {α : Type} (msg : String) : M α := fun t => (.error msg, t)

/-- Lift a pure `Except` result (no events). -/
def liftE {α : Type} (x : Except String α) : M α := fun t => (x, t)

/-- Record a collaborator call which returns `v`, or rejects when the
failure oracle selects it. -/
def callE {α : Type} (env : Env) (e : Event) (v : α) : M α := fun t =>
  if env.fails e then (.error "collaborator call failed", t ++ [e])
  else (.ok v, t ++ [e])

/-- Run from the empty trace. -/
def run {α : Type} (x : M α) : Except String α × List Event := x []

end M

/-! ## The request body and helper functions -/

/-- The JSON body of `POST /cluster` (spec §3
`ClusterProvisioningRequest`).  `nspace?` is the optional `namespace`
property, `sources?` is `none` when the `sources` property is absent
(the source tests `if (!spec.sources) return`). -/
structure CreateReq where
  name : String
  nspace? : Option String
  sources? : Option (List String)
  kubeseal_cert : String

/-- Character-level search and replace of the first (leftmost)
occurrence of `pat`. -/
def charsReplaceFirst (pat rep : List Char) : List Char → List Char
  | [] => []
  | c :: cs =>
    if pat.isPrefixOf (c :: cs) then rep ++ (c :: cs).drop pat.length
    else c :: charsReplaceFirst pat rep cs

/-- JS `s.replace(pat, rep)` with a string pattern: replaces the first
occurrence only. -/
def jsReplaceFirst (s pat rep : String) : String :=
  ⟨charsReplaceFirst pat.data rep.data s.data⟩

/-- Model of WHATWG `new URL(rel, base).toString()` for the case used
here: a relative path resolved against an absolute base URL replaces
everything after the base's last slash. -/
def urlResolve (base rel : String) : String :=
  String.intercalate "/" (base.splitOn "/").dropLast ++ "/" ++ rel

/-- Modelled from the spec: `manifests.README` (from `manifests.js`,
not under `src/`) is the static README content written as the first
commit. -/
def READMEtext : String := "ACS edge cluster GitOps repository"

/-! ## The `EdgeDeploy` handlers -/

/-- `create_repo(name)`: POST `/git/<group>/<name>` to the Git service;
throw (a string carrying the upstream status) unless the service
answers 200, otherwise return the created repository record. -/
def create_repo (env : Env) (name : String) : M RepoRec := do
  M.emit (.createRepoCall ("/git/" ++ (env.group ++ "/" ++ name)))
  if env.gitStatus ≠ 200 then
    M.throwE ("Git: cannot create repo " ++ (env.group ++ "/" ++ name) ++ ": " ++
      toString env.gitStatus)
  else
    pure env.gitRepo

/-- `create_cluster_objects(spec, repo)`: mint the cluster object, then
write the `Info` and `Cluster` config records; the namespace defaults
to `fplus-edge`. -/
def create_cluster_objects (env : Env) (spec : CreateReq) (repo : String) : M String := do
  let uuid ← M.callE env (.createObject Edge.Class.Cluster) env.newUuid
  M.callE env (.putConfig UUIDs.App.Info uuid (.infoVal spec.name)) ()
  M.callE env (.putConfig Edge.App.Cluster uuid
    (.clusterVal repo (spec.nspace?.getD "fplus-edge") spec.kubeseal_cert)) ()
  pure uuid

/-- The loop body of `setup_repo_links`: for each source, derive the
manifest name (`source.replace("/", ".")`), resolve the URL against
the Git base, and write the `GitRepository` / `Kustomization` pair. -/
def writeSources (env : Env) (base : String) : List String → M Unit
  | [] => pure ()
  | s :: rest => do
    M.callE env (.writeManifest
      (.gitRepoM FLUX_NS (jsReplaceFirst s "/" ".") (urlResolve base s))) ()
    M.callE env (.writeManifest
      (.fluxKustM FLUX_NS (jsReplaceFirst s "/" ".") (jsReplaceFirst s "/" "."))) ()
    writeSources env base rest

/-- `setup_repo_links(co, spec)`: skip entirely when `spec.sources` is
absent; otherwise discover the Git base URL, write the fixed
`op1flux-secrets` sealed secret (key `username`, plaintext
`op1flux/<name>`; the write itself is `write_sealed_secret`, whose
body is not under `src/` — modelled from the spec as one sealer call
into the checkout), write the source manifest pairs, and commit. -/
def setup_repo_links (env : Env) (spec : CreateReq) : M Unit := do
  match spec.sources? with
  | none => pure ()
  | some sources => do
    let base ← M.callE env (.serviceUrl Git.Service.Git) env.gitBase
    M.callE env (.writeSealedSecret FLUX_NS "op1flux-secrets" "username"
      ("op1flux/" ++ spec.name)) ()
    writeSources env base sources
    M.callE env (.commit "Written flux source manifests.") ()

/-- `populate_cluster_repo(repo, spec)`: init a fresh checkout at the
repo URL, write and commit the README, run `setup_repo_links`, push. -/
def populate_cluster_repo (env : Env) (repo : RepoRec) (spec : CreateReq) : M Unit := do
  M.callE env (.checkoutInit repo.url) ()
  M.callE env (.writeFile "README.md" READMEtext) ()
  M.callE env (.commit "Add README.") ()
  setup_repo_links env spec
  M.callE env (.push) ()

/-- The `POST /cluster` handler `create_cluster`: ACL check against the
null (wildcard) resource, then repo creation, registry records,
repository population; 201 `{uuid, flux}` on success, 403 when denied. -/
def create_cluster (env : Env) (req : CreateReq) :
    M (Nat × Option (String × String)) := do
  M.emit (.checkAcl Edge.Perm.Clusters UUIDs.Null false)
  if env.checkAcl Edge.Perm.Clusters UUIDs.Null false then do
    let repo ← create_repo env req.name
    let uuid ← create_cluster_objects env req repo.url
    populate_cluster_repo env repo req
    pure (201, some (uuid, repo.url))
  else
    pure (403, none)

/-- The manifest scan inside `cluster_status`: list the GitRepository
manifests and run `cluster_has_git_creds` over the cloned checkout
(its per-manifest reads are reads of the local checkout). -/
def scanM (co : Checkout) : M Bool := do
  M.emit (.listManifests FLUX_NS "GitRepository")
  M.liftE (cluster_has_git_creds co)

/-- The `GET /cluster/:cluster/status` handler `cluster_status`:
exact-match ACL check, `Cluster` config lookup (404 when absent),
clone, scan, dispose, 200 `{ready}`.  Note the source has no
try/finally: when the scan throws, the `dispose` line is never
reached. -/
def cluster_status (env : Env) (cluster : String) : M (Nat × Option Bool) := do
  M.emit (.checkAcl Edge.Perm.Clusters cluster true)
  if env.checkAcl Edge.Perm.Clusters cluster true then do
    M.emit (.getConfigCall Edge.App.Cluster cluster)
    match env.getConfig Edge.App.Cluster cluster with
    | none => pure (404, none)
    | some info => do
      M.emit (.checkoutClone info.flux)
      let ready ← scanM (env.clone info.flux)
      M.emit .dispose
      pure (200, some ready)
  else
    pure (403, none)

/-- The route parameters of
`/cluster/:cluster/secret/:namespace/:name/:key`. -/
structure SecretParams where
  cluster : String
  nspace : String
  name : String
  key : String

/-- The query string, as key/value pairs. -/
def hasDryrun (query : List (String × String)) : Bool :=
  (query.map Prod.fst).contains "dryrun"

/-- The `PUT .../secret/...` handler `seal_secret`: `dryrun` is the
presence of the `dryrun` query key (`"dryrun" in req.query`), the ACL
is checked per cluster, and the sealer's status is relayed verbatim. -/
def seal_secret (env : Env) (p : SecretParams) (query : List (String × String)) :
    M Nat := do
  M.emit (.checkAcl Edge.Perm.Secrets p.cluster true)
  if env.checkAcl Edge.Perm.Secrets p.cluster true then do
    M.callE env (.sealSecret p.cluster p.nspace p.name p.key (hasDryrun query)) ()
    pure env.sealStatus
  else
    pure 403

/-- The `DELETE .../secret/...` handler `delete_sealed_secret`. -/
def delete_sealed_secret (env : Env) (p : SecretParams)
    (query : List (String × String)) : M Nat := do
  M.emit (.checkAcl Edge.Perm.Secrets p.cluster true)
  if env.checkAcl Edge.Perm.Secrets p.cluster true then do
    M.callE env (.deleteSecret p.cluster p.nspace p.name p.key (hasDryrun query)) ()
    pure env.deleteStatus
  else
    pure 403

/-! ## Trace refinement

`RunsTo f v full` says: from any starting trace, `f` appends some
prefix of `full`, and when it succeeds it returns `v` having appended
exactly `full`.  This captures both the strict ordering of collaborator
calls and "a failed step stops the saga": whatever fails, the recorded
trace never leaves the ordered call sequence. -/
def RunsTo {α : Type} (f : M α) (v : α) (full : List Event) : Prop :=
  ∀ t, ∃ r δ, f t = (r, t ++ δ) ∧ δ <+: full ∧ ∀ a, r = .ok a → a = v ∧ δ = full

/-! ### The collaborator call sequences of the provisioning saga -/

/-- The single Git-service call of `create_repo`. -/
def createRepoTrace (env : Env) (name : String) : List Event :=
  [.createRepoCall ("/git/" ++ (env.group ++ "/" ++ name))]

/-- The three registry calls of `create_cluster_objects`. -/
def objectsTrace (env : Env) (req : CreateReq) (repo : String) : List Event :=
  [.createObject Edge.Class.Cluster,
   .putConfig UUIDs.App.Info env.newUuid (.infoVal req.name),
   .putConfig Edge.App.Cluster env.newUuid
     (.clusterVal repo (req.nspace?.getD "fplus-edge") req.kubeseal_cert)]

/-- The manifest writes of the `setup_repo_links` loop. -/
def sourcesTrace (base : String) : List String → List Event
  | [] => []
  | s :: rest =>
    .writeManifest (.gitRepoM FLUX_NS (jsReplaceFirst s "/" ".") (urlResolve base s)) ::
    .writeManifest (.fluxKustM FLUX_NS (jsReplaceFirst s "/" ".") (jsReplaceFirst s "/" ".")) ::
    sourcesTrace base rest

/-- The calls of `setup_repo_links`. -/
def linksTrace (env : Env) (req : CreateReq) : List Event :=
  match req.sources? with
  | none => []
  | some ss =>
    .serviceUrl Git.Service.Git ::
    .writeSealedSecret FLUX_NS "op1flux-secrets" "username" ("op1flux/" ++ req.name) ::
    (sourcesTrace env.gitBase ss ++ [.commit "Written flux source manifests."])

/-- The calls of `populate_cluster_repo`. -/
def popTrace (env : Env) (repo : RepoRec) (req : CreateReq) : List Event :=
  [.checkoutInit repo.url, .writeFile "README.md" READMEtext, .commit "Add README."]
  ++ linksTrace env req ++ [.push]

/-- The full collaborator call sequence of an authorized
`create_cluster` run. -/
def createFullTrace (env : Env) (req : CreateReq) : List Event :=
  .checkAcl Edge.Perm.Clusters UUIDs.Null false ::
  (createRepoTrace env req.name
   ++ objectsTrace env req env.gitRepo.url
   ++ popTrace env env.gitRepo req)

/-! ### Event classification -/

/-- Anything other than the Access Control check is a collaborator
operation (repository, registry, checkout, discovery, or sealer call). -/
def isCollabCall : Event → Bool
  | .checkAcl _ _ _ => false
  | _ => true

/-- Events that mutate a collaborator (registry writes, repository
creation, checkout writes/commits/pushes, sealer calls); the ACL check,
config reads, clone, discovery, listing and dispose are reads. -/
def isWriteEvent : Event → Bool
  | .checkAcl _ _ _ => false
  | .getConfigCall _ _ => false
  | .checkoutClone _ => false
  | .serviceUrl _ => false
  | .listManifests _ _ => false
  | .dispose => false
  | _ => true

/-- A checkout manifest write. -/
def Event.isManifestWrite : Event → Bool
  | .writeManifest _ => true
  | _ => false

/-- The saga phase of an event, following claim C2's ordering:
repository creation (1) before registry writes (2) before
checkout/commit work (3) before the push (4). -/
def phase : Event → Nat
  | .checkAcl _ _ _ => 0
  | .createRepoCall _ => 1
  | .createObject _ => 2
  | .putConfig _ _ _ => 2
  | .getConfigCall _ _ => 2
  | .push => 4
  | _ => 3

/-- A referenced sealed secret is scan-safe: absent, or present with
`spec` and `spec.encryptedData` both present. -/
def Checkout.wfSealed (co : Checkout) (s : String) : Bool :=
  match co.sealedSecrets.lookup s with
  | none => true
  | some sd =>
    match sd.spec? with
    | none => false
    | some sp => sp.encryptedData?.isSome

/-! ### Concrete instances for witnesses and counterexamples -/

/-- A checkout whose single GitRepository references a SealedSecret
carrying `username` and `password` keys. -/
def okCheckout : Checkout :=
  ⟨[("mainrepo", ⟨some ⟨"https://git.example/git/org/repoA", some ⟨some "creds1"⟩⟩⟩)],
   [("creds1", ⟨some ⟨some ["username", "password"]⟩⟩)]⟩

/-- A `Cluster` config record. -/
def cfgW : ClusterConfig := ⟨"https://git.example/git/fplus-edge/cell1", "fplus-edge", "PEM"⟩

/-- The repository record the Git service returns. -/
def repoW : RepoRec := ⟨"fplus-edge/cell1", "https://git.example/git/fplus-edge/cell1"⟩

/-- An environment where everything succeeds. -/
def envW : Env :=
  ⟨"fplus-edge", fun _ _ _ => true, fun _ _ => some cfgW, fun _ => okCheckout,
   200, repoW, "uuid-cell1", "https://git.example/git/", fun _ => false, 201, 204⟩

/-- An environment whose ACL denies everything. -/
def envDenied : Env :=
  ⟨"fplus-edge", fun _ _ _ => false, fun _ _ => some cfgW, fun _ => okCheckout,
   200, repoW, "uuid-cell1", "https://git.example/git/", fun _ => false, 201, 204⟩

/-- An environment where the Git service answers 500 on repo creation. -/
def envBadGit : Env :=
  ⟨"fplus-edge", fun _ _ _ => true, fun _ _ => some cfgW, fun _ => okCheckout,
   500, repoW, "uuid-cell1", "https://git.example/git/", fun _ => false, 201, 204⟩

/-- A checkout whose referenced SealedSecret has `spec` but no
`spec.encryptedData`. -/
def coNoEnc : Checkout :=
  ⟨[("r1", ⟨some ⟨"https://git.example/git/org/repoA", some ⟨some "creds1"⟩⟩⟩)],
   [("creds1", ⟨some ⟨none⟩⟩)]⟩

/-- Environment cloning `coNoEnc`. -/
def envNoEnc : Env :=
  ⟨"fplus-edge", fun _ _ _ => true, fun _ _ => some cfgW, fun _ => coNoEnc,
   200, repoW, "uuid-1", "https://git.example/git/", fun _ => false, 201, 204⟩

/-- A checkout whose referenced SealedSecret has no `spec` at all. -/
def coNoSpec : Checkout :=
  ⟨[("r2", ⟨some ⟨"https://git.example/git/org/repoB", some ⟨some "creds2"⟩⟩⟩)],
   [("creds2", ⟨none⟩)]⟩

/-- Environment cloning `coNoSpec`. -/
def envNoSpec : Env :=
  ⟨"fplus-edge", fun _ _ _ => true, fun _ _ => some cfgW, fun _ => coNoSpec,
   200, repoW, "uuid-2", "https://git.example/git/", fun _ => false, 201, 204⟩

/-- The provisioning request of the spec's worked scenario. -/
def reqW : CreateReq := ⟨"cell1", none, some ["org/repoA"], "PEM"⟩

/-- Concrete secret route parameters. -/
def pW : SecretParams := ⟨"cl", "ns1", "sec1", "key1"⟩

/-- A query string carrying `dryrun=false`. -/
def qW : List (String × String) := [("dryrun", "false")]

/-! ## Lemmas and claim theorems -/
/-! ### The readiness equivalence, at the scan level -/

lemma checkSealed_ok_true_iff (co : Checkout) (s : String) :
    co.checkSealed s = .ok true ↔ co.secretOk s := by
  unfold Checkout.checkSealed Checkout.secretOk
  cases h : co.sealedSecrets.lookup s with
  | none => simp
  | some sealed =>
    cases hsp : sealed.spec? with
    | none => simp [hsp]
    | some sp =>
      cases he : sp.encryptedData? with
      | none => simp [hsp, he]
      | some keys =>
        simp only [hsp, he, Except.ok.injEq, Option.some.injEq, credsPresent]
        constructor
        · intro hb
          refine ⟨sealed, rfl, sp, hsp, keys, he, ?_⟩
          rcases Bool.or_eq_true _ _ |>.mp hb with h1 | h2
          · exact Or.inl (List.elem_iff.mp h1)
          · rcases Bool.and_eq_true _ _ |>.mp h2 with ⟨hu, hp⟩
            exact Or.inr ⟨List.elem_iff.mp hu, List.elem_iff.mp hp⟩
        · rintro ⟨sealed', hs', sp', hsp', keys', hk', hcred⟩
          cases hs'
          rw [hsp] at hsp'; cases hsp'
          rw [he] at hk'; cases hk'
          rcases hcred with h1 | ⟨hu, hp⟩
          · exact Bool.or_eq_true _ _ |>.mpr (Or.inl (List.elem_iff.mpr h1))
          · exact Bool.or_eq_true _ _ |>.mpr (Or.inr (Bool.and_eq_true _ _ |>.mpr
              ⟨List.elem_iff.mpr hu, List.elem_iff.mpr hp⟩))

lemma checkAllSecrets_ok_true_iff (co : Checkout) :
    ∀ l : List String, co.checkAllSecrets l = .ok true ↔ ∀ s ∈ l, co.secretOk s := by
  intro l
  induction l with
  | nil => simp [Checkout.checkAllSecrets]
  | cons s rest ih =>
    unfold Checkout.checkAllSecrets
    cases h : co.checkSealed s with
    | error e =>
      simp only [List.mem_cons]
      constructor
      · intro hc; cases hc
      · intro hall
        have := (checkSealed_ok_true_iff co s).mpr (hall s (Or.inl rfl))
        rw [h] at this; cases this
    | ok b =>
      cases b with
      | true =>
        simp only [List.mem_cons]
        constructor
        · intro hc s' hs'
          rcases hs' with rfl | hs'
          · exact (checkSealed_ok_true_iff co s').mp h
          · exact (ih.mp hc) s' hs'
        · intro hall
          exact ih.mpr (fun s' hs' => hall s' (Or.inr hs'))
      | false =>
        simp only [List.mem_cons]
        constructor
        · intro hc; cases hc
        · intro hall
          have := (checkSealed_ok_true_iff co s).mpr (hall s (Or.inl rfl))
          rw [h] at this; cases this

/-- The secret names list captures exactly the manifests with a secret
reference. -/
lemma secretNames_mem_iff (co : Checkout) (s : String) :
    s ∈ co.secretNames ↔ ∃ p ∈ co.gitRepos, p.2.secretRefName = some s := by
  unfold Checkout.secretNames
  simp only [List.mem_filterMap, List.mem_map, id_eq]
  constructor
  · rintro ⟨o, ⟨p, hp, rfl⟩, ho⟩
    exact ⟨p, hp, ho⟩
  · rintro ⟨p, hp, hn⟩
    exact ⟨some s, ⟨p, hp, hn⟩, rfl⟩

/-- Scan-level readiness equivalence: `cluster_has_git_creds` returns
`ok true` exactly when every referenced secret is matched by a
credentialed SealedSecret. -/
lemma cluster_has_git_creds_ok_true_iff (co : Checkout) :
    cluster_has_git_creds co = .ok true ↔ co.allReposCredentialed := by
  unfold cluster_has_git_creds Checkout.allReposCredentialed
  rw [checkAllSecrets_ok_true_iff]
  constructor
  · intro h p hp s hs
    exact h s ((secretNames_mem_iff co s).mpr ⟨p, hp, hs⟩)
  · intro h s hs
    rcases (secretNames_mem_iff co s).mp hs with ⟨p, hp, hn⟩
    exact h p hp s hn

lemma M.bind_eq {α β : Type} (x : M α) (g : α → M β) (t : List Event) :
    (x >>= g) t =
      match x t with
      | (.ok a, t2) => g a t2
      | (.error e, t2) => (.error e, t2) := rfl

lemma listPrefixAppendLeft {α : Type} {a b : List α} (l : List α) (h : a <+: b) :
    l ++ a <+: l ++ b := by
  obtain ⟨u, rfl⟩ := h
  exact ⟨u, by simp⟩

lemma RunsTo.congr {α : Type} {f : M α} {v : α} {full1 full2 : List Event}
    (h : RunsTo f v full1) (he : full1 = full2) : RunsTo f v full2 := he ▸ h

lemma RunsTo.bind {α β : Type} {f : M α} {g : α → M β} {v : α} {w : β}
    {full1 full2 : List Event}
    (hf : RunsTo f v full1) (hg : RunsTo (g v) w full2) :
    RunsTo (f >>= g) w (full1 ++ full2) := by
  intro t
  obtain ⟨r, δ, hft, hpre, hok⟩ := hf t
  cases r with
  | error e =>
    refine ⟨.error e, δ, ?_, hpre.trans (List.prefix_append _ _), ?_⟩
    · rw [M.bind_eq, hft]
    · intro a ha; cases ha
  | ok a =>
    obtain ⟨ha, hδ⟩ := hok a rfl
    rw [ha, hδ] at hft
    obtain ⟨r2, δ2, hgt, hpre2, hok2⟩ := hg (t ++ full1)
    refine ⟨r2, full1 ++ δ2, ?_, listPrefixAppendLeft _ hpre2, ?_⟩
    · rw [M.bind_eq, hft]
      show g v (t ++ full1) = (r2, t ++ (full1 ++ δ2))
      rw [hgt, List.append_assoc]
    · intro b hb
      obtain ⟨hb1, hb2⟩ := hok2 b hb
      exact ⟨hb1, by rw [hb2]⟩

lemma RunsTo.pureE {α : Type} (a : α) : RunsTo (pure a : M α) a [] := by
  intro t
  exact ⟨.ok a, [], by simp [Pure.pure], List.nil_prefix, fun b hb => by
    cases hb; exact ⟨rfl, rfl⟩⟩

lemma RunsTo.emit (e : Event) : RunsTo (M.emit e) () [e] := by
  intro t
  exact ⟨.ok (), [e], rfl, List.prefix_rfl, fun a _ => ⟨rfl, rfl⟩⟩

lemma RunsTo.throwE {α : Type} (msg : String) (v : α) :
    RunsTo (M.throwE msg) v [] := by
  intro t
  exact ⟨.error msg, [], by simp [M.throwE], List.nil_prefix, fun a ha => by cases ha⟩

lemma RunsTo.callE {α : Type} (env : Env) (e : Event) (v : α) :
    RunsTo (M.callE env e v) v [e] := by
  intro t
  by_cases h : env.fails e
  · exact ⟨.error "collaborator call failed", [e], by simp [M.callE, h],
      List.prefix_rfl, fun a ha => by cases ha⟩
  · exact ⟨.ok v, [e], by simp [M.callE, h], List.prefix_rfl,
      fun a ha => by cases ha; exact ⟨rfl, rfl⟩⟩

lemma RunsTo.ite {α : Type} {c : Prop} [Decidable c] {x y : M α} {v : α}
    {full : List Event} (hx : RunsTo x v full) (hy : RunsTo y v full) :
    RunsTo (if c then x else y) v full := by
  by_cases h : c
  · rw [if_pos h]; exact hx
  · rw [if_neg h]; exact hy

lemma create_repo_runsTo (env : Env) (name : String) :
    RunsTo (create_repo env name) env.gitRepo (createRepoTrace env name) := by
  unfold create_repo createRepoTrace
  exact RunsTo.congr
    (RunsTo.bind (RunsTo.emit _)
      (RunsTo.ite (RunsTo.throwE _ _) (RunsTo.pureE _))) (by simp)

lemma create_cluster_objects_runsTo (env : Env) (req : CreateReq) (repo : String) :
    RunsTo (create_cluster_objects env req repo) env.newUuid
      (objectsTrace env req repo) := by
  unfold create_cluster_objects objectsTrace
  exact RunsTo.congr
    (RunsTo.bind (RunsTo.callE _ _ _)
      (RunsTo.bind (RunsTo.callE _ _ _)
        (RunsTo.bind (RunsTo.callE _ _ _) (RunsTo.pureE _)))) (by simp)

lemma writeSources_runsTo (env : Env) (base : String) (ss : List String) :
    RunsTo (writeSources env base ss) () (sourcesTrace base ss) := by
  induction ss with
  | nil => exact RunsTo.pureE _
  | cons s rest ih =>
    unfold writeSources sourcesTrace
    exact RunsTo.congr
      (RunsTo.bind (RunsTo.callE _ _ _)
        (RunsTo.bind (RunsTo.callE _ _ _) ih)) (by simp)

lemma setup_repo_links_runsTo (env : Env) (req : CreateReq) :
    RunsTo (setup_repo_links env req) () (linksTrace env req) := by
  unfold setup_repo_links linksTrace
  cases hs : req.sources? with
  | none => exact RunsTo.pureE _
  | some ss =>
    exact RunsTo.congr
      (RunsTo.bind (RunsTo.callE _ _ _)
        (RunsTo.bind (RunsTo.callE _ _ _)
          (RunsTo.bind (writeSources_runsTo env env.gitBase ss)
            (RunsTo.callE _ _ _)))) (by simp)

lemma populate_cluster_repo_runsTo (env : Env) (repo : RepoRec) (req : CreateReq) :
    RunsTo (populate_cluster_repo env repo req) () (popTrace env repo req) := by
  unfold populate_cluster_repo popTrace
  exact RunsTo.congr
    (RunsTo.bind (RunsTo.callE _ _ _)
      (RunsTo.bind (RunsTo.callE _ _ _)
        (RunsTo.bind (RunsTo.callE _ _ _)
          (RunsTo.bind (setup_repo_links_runsTo env req)
            (RunsTo.callE _ _ _))))) (by simp)

lemma create_cluster_runsTo (env : Env) (req : CreateReq)
    (hAcl : env.checkAcl Edge.Perm.Clusters UUIDs.Null false = true) :
    RunsTo (create_cluster env req)
      (201, some (env.newUuid, env.gitRepo.url)) (createFullTrace env req) := by
  unfold create_cluster createFullTrace
  rw [hAcl]
  simp only [if_true]
  exact RunsTo.congr
    (RunsTo.bind (RunsTo.emit _)
      (RunsTo.bind (create_repo_runsTo env req.name)
        (RunsTo.bind (create_cluster_objects_runsTo env req env.gitRepo.url)
          (RunsTo.bind (populate_cluster_repo_runsTo env env.gitRepo req)
            (RunsTo.pureE _))))) (by simp)

/-! ### Pointwise run equations -/

lemma M.run_def {α : Type} (x : M α) : x.run = x [] := rfl

lemma M.emit_eq (e : Event) (t : List Event) : M.emit e t = (.ok (), t ++ [e]) := rfl

lemma M.pure_eq {α : Type} (a : α) (t : List Event) : (pure a : M α) t = (.ok a, t) := rfl

lemma M.throwE_eq {α : Type} (msg : String) (t : List Event) :
    (M.throwE msg : M α) t = (.error msg, t) := rfl

lemma M.liftE_eq {α : Type} (x : Except String α) (t : List Event) :
    M.liftE x t = (x, t) := rfl

lemma M.callE_eq {α : Type} (env : Env) (e : Event) (v : α) (t : List Event) :
    M.callE env e v t =
      if env.fails e then (.error "collaborator call failed", t ++ [e])
      else (.ok v, t ++ [e]) := rfl

lemma RunsTo.run_ok {α : Type} {f : M α} {v : α} {full : List Event}
    (h : RunsTo f v full) :
    (∀ a, (f.run).1 = .ok a → a = v ∧ (f.run).2 = full) ∧ (f.run).2 <+: full := by
  obtain ⟨r, δ, hft, hpre, hok⟩ := h []
  have hrun : f.run = (r, δ) := by rw [M.run_def, hft, List.nil_append]
  constructor
  · intro a ha
    rw [hrun] at ha
    obtain ⟨ha1, ha2⟩ := hok a ha
    exact ⟨ha1, by rw [hrun, ha2]⟩
  · rw [hrun]
    exact hpre

/-- The readiness handler, run with a granted ACL and a found `Cluster`
config: the result and trace are determined by the scan's outcome, and
the `dispose` call is recorded only on the non-throwing path. -/
lemma cluster_status_run_eq (env : Env) (c : String) (info : ClusterConfig)
    (hAcl : env.checkAcl Edge.Perm.Clusters c true = true)
    (hcfg : env.getConfig Edge.App.Cluster c = some info) :
    (cluster_status env c).run =
      match cluster_has_git_creds (env.clone info.flux) with
      | .ok b => (.ok (200, some b),
          [.checkAcl Edge.Perm.Clusters c true,
           .getConfigCall Edge.App.Cluster c,
           .checkoutClone info.flux,
           .listManifests FLUX_NS "GitRepository",
           .dispose])
      | .error e => (.error e,
          [.checkAcl Edge.Perm.Clusters c true,
           .getConfigCall Edge.App.Cluster c,
           .checkoutClone info.flux,
           .listManifests FLUX_NS "GitRepository"]) := by
  unfold cluster_status scanM
  rw [M.run_def]
  simp only [M.bind_eq, M.emit_eq, M.pure_eq, M.liftE_eq, hAcl, hcfg, if_true]
  cases h : cluster_has_git_creds (env.clone info.flux) with
  | ok b => simp [h, M.bind_eq, M.emit_eq, M.pure_eq, M.liftE_eq]
  | error e => simp [h, M.bind_eq, M.emit_eq, M.pure_eq, M.liftE_eq]

/-! ### The denied (403) paths -/

lemma create_cluster_run_denied (env : Env) (req : CreateReq)
    (h : env.checkAcl Edge.Perm.Clusters UUIDs.Null false = false) :
    (create_cluster env req).run =
      (.ok (403, none), [.checkAcl Edge.Perm.Clusters UUIDs.Null false]) := by
  unfold create_cluster
  rw [M.run_def]
  simp [M.bind_eq, M.emit_eq, M.pure_eq, h]

lemma cluster_status_run_denied (env : Env) (c : String)
    (h : env.checkAcl Edge.Perm.Clusters c true = false) :
    (cluster_status env c).run =
      (.ok (403, none), [.checkAcl Edge.Perm.Clusters c true]) := by
  unfold cluster_status
  rw [M.run_def]
  simp [M.bind_eq, M.emit_eq, M.pure_eq, h]

lemma seal_secret_run_denied (env : Env) (p : SecretParams)
    (q : List (String × String))
    (h : env.checkAcl Edge.Perm.Secrets p.cluster true = false) :
    (seal_secret env p q).run =
      (.ok 403, [.checkAcl Edge.Perm.Secrets p.cluster true]) := by
  unfold seal_secret
  rw [M.run_def]
  simp [M.bind_eq, M.emit_eq, M.pure_eq, h]

lemma delete_sealed_secret_run_denied (env : Env) (p : SecretParams)
    (q : List (String × String))
    (h : env.checkAcl Edge.Perm.Secrets p.cluster true = false) :
    (delete_sealed_secret env p q).run =
      (.ok 403, [.checkAcl Edge.Perm.Secrets p.cluster true]) := by
  unfold delete_sealed_secret
  rw [M.run_def]
  simp [M.bind_eq, M.emit_eq, M.pure_eq, h]

/-! ### The authorized sealing paths -/

lemma seal_secret_run_trace (env : Env) (p : SecretParams)
    (q : List (String × String))
    (h : env.checkAcl Edge.Perm.Secrets p.cluster true = true) :
    (seal_secret env p q).run.2 =
      [.checkAcl Edge.Perm.Secrets p.cluster true,
       .sealSecret p.cluster p.nspace p.name p.key (hasDryrun q)] := by
  unfold seal_secret
  rw [M.run_def]
  by_cases hf : env.fails (.sealSecret p.cluster p.nspace p.name p.key (hasDryrun q)) <;>
    simp [M.bind_eq, M.emit_eq, M.pure_eq, M.callE_eq, h, hf]

lemma delete_sealed_secret_run_trace (env : Env) (p : SecretParams)
    (q : List (String × String))
    (h : env.checkAcl Edge.Perm.Secrets p.cluster true = true) :
    (delete_sealed_secret env p q).run.2 =
      [.checkAcl Edge.Perm.Secrets p.cluster true,
       .deleteSecret p.cluster p.nspace p.name p.key (hasDryrun q)] := by
  unfold delete_sealed_secret
  rw [M.run_def]
  by_cases hf : env.fails (.deleteSecret p.cluster p.nspace p.name p.key (hasDryrun q)) <;>
    simp [M.bind_eq, M.emit_eq, M.pure_eq, M.callE_eq, h, hf]

lemma sourcesTrace_phase (base : String) :
    ∀ ss : List String, ∀ e ∈ sourcesTrace base ss, phase e = 3 := by
  intro ss
  induction ss with
  | nil => intro e he; cases he
  | cons s rest ih =>
    intro e he
    rcases he with _ | ⟨_, (_ | ⟨_, hmem⟩)⟩
    · rfl
    · rfl
    · exact ih e hmem

lemma linksTrace_phase (env : Env) (req : CreateReq) :
    ∀ e ∈ linksTrace env req, phase e = 3 := by
  unfold linksTrace
  cases hs : req.sources? with
  | none => intro e he; cases he
  | some ss =>
    intro e he
    rcases he with _ | ⟨_, (_ | ⟨_, hmem⟩)⟩
    · rfl
    · rfl
    · rcases List.mem_append.mp hmem with h1 | h2
      · exact sourcesTrace_phase env.gitBase ss e h1
      · rcases h2 with _ | ⟨_, h⟩
        · rfl
        · cases h

lemma map_const_of_mem (l : List Event) (h : ∀ e ∈ l, phase e = 3) :
    l.map phase = List.replicate l.length 3 := by
  induction l with
  | nil => rfl
  | cons e rest ih =>
    simp only [List.map_cons, List.length_cons, List.replicate_succ]
    rw [h e (List.mem_cons_self _ _), ih (fun x hx => h x (List.mem_cons_of_mem _ hx))]

lemma sorted_replicate3_append4 :
    ∀ n : Nat, List.Sorted (· ≤ ·) (List.replicate n 3 ++ [4] : List Nat) := by
  intro n
  induction n with
  | zero => simp
  | succ k ih =>
    rw [List.replicate_succ, List.cons_append]
    refine List.sorted_cons.mpr ⟨?_, ih⟩
    intro b hb
    rcases List.mem_append.mp hb with h1 | h2
    · rw [List.eq_of_mem_replicate h1]
    · rcases h2 with _ | ⟨_, h⟩
      · omega
      · cases h

/-- The phase sequence of the full provisioning trace. -/
lemma createFullTrace_map_phase (env : Env) (req : CreateReq) :
    (createFullTrace env req).map phase =
      0 :: 1 :: 2 :: 2 :: 2 :: 3 :: 3 :: 3 ::
        (List.replicate (linksTrace env req).length 3 ++ [4]) := by
  unfold createFullTrace createRepoTrace objectsTrace popTrace
  simp only [List.map_cons, List.map_append, List.cons_append, List.nil_append,
    List.map_nil]
  rw [map_const_of_mem _ (linksTrace_phase env req)]
  rfl

lemma createFullTrace_phases_sorted (env : Env) (req : CreateReq) :
    List.Sorted (· ≤ ·) ((createFullTrace env req).map phase) := by
  rw [createFullTrace_map_phase]
  have hrep := sorted_replicate3_append4 (linksTrace env req).length
  have hmem : ∀ b ∈ List.replicate (linksTrace env req).length 3 ++ [4], 3 ≤ b := by
    intro b hb
    rcases List.mem_append.mp hb with h1 | h2
    · rw [List.eq_of_mem_replicate h1]
    · rcases h2 with _ | ⟨_, h⟩
      · omega
      · cases h
  refine List.sorted_cons.mpr ⟨?_, ?_⟩
  · intro b hb
    simp only [List.mem_cons] at hb
    rcases hb with rfl | rfl | rfl | rfl | rfl | rfl | rfl | hb
    all_goals omega
  · refine List.sorted_cons.mpr ⟨?_, ?_⟩
    · intro b hb
      simp only [List.mem_cons] at hb
      rcases hb with rfl | rfl | rfl | rfl | rfl | rfl | hb
      all_goals first
        | omega
        | exact le_trans (by omega) (hmem b (by assumption))
    · refine List.sorted_cons.mpr ⟨?_, ?_⟩
      · intro b hb
        simp only [List.mem_cons] at hb
        rcases hb with rfl | rfl | rfl | rfl | rfl | hb
        all_goals first
          | omega
          | exact le_trans (by omega) (hmem b (by assumption))
      · refine List.sorted_cons.mpr ⟨?_, ?_⟩
        · intro b hb
          simp only [List.mem_cons] at hb
          rcases hb with rfl | rfl | rfl | rfl | hb
          all_goals first
            | omega
            | exact le_trans (by omega) (hmem b (by assumption))
        · refine List.sorted_cons.mpr ⟨?_, ?_⟩
          · intro b hb
            simp only [List.mem_cons] at hb
            rcases hb with rfl | rfl | rfl | hb
            all_goals first
              | omega
              | exact le_trans (by omega) (hmem b (by assumption))
          · refine List.sorted_cons.mpr ⟨?_, ?_⟩
            · intro b hb
              simp only [List.mem_cons] at hb
              rcases hb with rfl | rfl | hb
              all_goals first
                | omega
                | exact le_trans (by omega) (hmem b (by assumption))
            · refine List.sorted_cons.mpr ⟨?_, ?_⟩
              · intro b hb
                simp only [List.mem_cons] at hb
                rcases hb with rfl | hb
                all_goals first
                  | omega
                  | exact le_trans (by omega) (hmem b (by assumption))
              · refine List.sorted_cons.mpr ⟨?_, hrep⟩
                intro b hb
                exact hmem b hb

lemma cluster_status_run_notfound (env : Env) (c : String)
    (hAcl : env.checkAcl Edge.Perm.Clusters c true = true)
    (hcfg : env.getConfig Edge.App.Cluster c = none) :
    (cluster_status env c).run =
      (.ok (404, none),
       [.checkAcl Edge.Perm.Clusters c true, .getConfigCall Edge.App.Cluster c]) := by
  unfold cluster_status
  rw [M.run_def]
  simp [M.bind_eq, M.emit_eq, M.pure_eq, hAcl, hcfg]

/-- Whatever the outcome, the readiness handler records only read
events. -/
lemma cluster_status_trace_nonwrite (env : Env) (c : String) :
    ((cluster_status env c).run.2).all (fun e => !isWriteEvent e) = true := by
  cases hAcl : env.checkAcl Edge.Perm.Clusters c true with
  | false =>
    rw [cluster_status_run_denied env c hAcl]
    simp [isWriteEvent]
  | true =>
    cases hcfg : env.getConfig Edge.App.Cluster c with
    | none =>
      rw [cluster_status_run_notfound env c hAcl hcfg]
      simp [isWriteEvent]
    | some info =>
      have hrun := cluster_status_run_eq env c info hAcl hcfg
      cases hscan : cluster_has_git_creds (env.clone info.flux) with
      | ok b =>
        rw [hrun, hscan]
        simp [isWriteEvent]
      | error e =>
        rw [hrun, hscan]
        simp [isWriteEvent]

lemma foldl_fix_of_nonwrite (upd : Env → Event → Env)
    (hupd : ∀ en e, isWriteEvent e = false → upd en e = en) :
    ∀ (l : List Event) (en : Env), l.all (fun e => !isWriteEvent e) = true →
      l.foldl upd en = en := by
  intro l
  induction l with
  | nil => intro en _; rfl
  | cons e rest ih =>
    intro en hall
    rw [List.all_cons] at hall
    obtain ⟨h1, h2⟩ := Bool.and_eq_true _ _ |>.mp hall
    have he : isWriteEvent e = false := by simpa using h1
    rw [List.foldl_cons, hupd en e he, ih en h2]

/-- A scan whose referenced sealed secrets are all scan-safe never
throws. -/
lemma checkAllSecrets_ok_of_wf (co : Checkout) :
    ∀ l : List String, (∀ s ∈ l, co.wfSealed s = true) →
      ∃ b, co.checkAllSecrets l = .ok b := by
  intro l
  induction l with
  | nil => intro _; exact ⟨true, rfl⟩
  | cons s rest ih =>
    intro hwf
    have hws := hwf s (List.mem_cons_self _ _)
    unfold Checkout.checkAllSecrets
    cases hl : co.sealedSecrets.lookup s with
    | none =>
      have hcs : co.checkSealed s = .ok false := by
        simp only [Checkout.checkSealed, hl]
      rw [hcs]
      exact ⟨false, rfl⟩
    | some sd =>
      simp only [Checkout.wfSealed, hl] at hws
      cases hsp : sd.spec? with
      | none => simp [hsp] at hws
      | some sp =>
        simp only [hsp] at hws
        cases hk : sp.encryptedData? with
        | none => simp [hk] at hws
        | some keys =>
          have hcs : co.checkSealed s = .ok (keys.contains "bearerToken" ||
              (keys.contains "username" && keys.contains "password")) := by
            simp only [Checkout.checkSealed, hl, hsp, hk]
          cases hb : (keys.contains "bearerToken" ||
              (keys.contains "username" && keys.contains "password")) with
          | true =>
            rw [hb] at hcs
            rw [hcs]
            exact ih (fun s2 hs2 => hwf s2 (List.mem_cons_of_mem _ hs2))
          | false =>
            rw [hb] at hcs
            rw [hcs]
            exact ⟨false, rfl⟩

lemma sourcesTrace_manifestWrites (base : String) :
    ∀ ss : List String, ∀ e ∈ sourcesTrace base ss, e.isManifestWrite = true := by
  intro ss
  induction ss with
  | nil => intro e he; cases he
  | cons s rest ih =>
    intro e he
    rcases he with _ | ⟨_, (_ | ⟨_, hmem⟩)⟩
    · rfl
    · rfl
    · exact ih e hmem

lemma sourcesTrace_mem_pair (base : String) :
    ∀ (ss : List String) (s : String), s ∈ ss →
      Event.writeManifest
        (.gitRepoM FLUX_NS (jsReplaceFirst s "/" ".") (urlResolve base s)) ∈
        sourcesTrace base ss ∧
      Event.writeManifest
        (.fluxKustM FLUX_NS (jsReplaceFirst s "/" ".") (jsReplaceFirst s "/" ".")) ∈
        sourcesTrace base ss := by
  intro ss
  induction ss with
  | nil => intro s hs; cases hs
  | cons s0 rest ih =>
    intro s hs
    rcases List.mem_cons.mp hs with rfl | hs2
    · exact ⟨List.mem_cons_self _ _,
        List.mem_cons_of_mem _ (List.mem_cons_self _ _)⟩
    · obtain ⟨h1, h2⟩ := ih s hs2
      exact ⟨List.mem_cons_of_mem _ (List.mem_cons_of_mem _ h1),
        List.mem_cons_of_mem _ (List.mem_cons_of_mem _ h2)⟩

lemma mem_createFullTrace_of_mem_sources (env : Env) (req : CreateReq)
    (ss : List String) (hs : req.sources? = some ss) {e : Event}
    (he : e ∈ sourcesTrace env.gitBase ss) : e ∈ createFullTrace env req := by
  unfold createFullTrace popTrace linksTrace
  rw [hs]
  simp only [List.mem_cons, List.mem_append]
  tauto

/-! ## Claim theorems -/

/-- C1: with authorization granted and a `Cluster` config record found,
`cluster_status` answers 200 with `ready = true` exactly when every
GitRepository manifest in `flux-system` that specifies
`spec.secretRef.name` is matched by a SealedSecret of the same name
whose `spec.encryptedData` key set contains `bearerToken`, or both
`username` and `password`; manifests with no secretRef are discarded
by the quantification, and with zero GitRepository manifests the
cluster is ready. -/
theorem clusterStatus_ready_iff_credentialed (env : Env) (c : String)
    (info : ClusterConfig)
    (hAcl : env.checkAcl Edge.Perm.Clusters c true = true)
    (hcfg : env.getConfig Edge.App.Cluster c = some info) :
    (((cluster_status env c).run.1 = .ok (200, some true)) ↔
      (env.clone info.flux).allReposCredentialed) ∧
    ((env.clone info.flux).gitRepos = [] →
      (cluster_status env c).run.1 = .ok (200, some true)) := by
  have hrun := cluster_status_run_eq env c info hAcl hcfg
  constructor
  · constructor
    · intro h
      rw [hrun] at h
      cases hscan : cluster_has_git_creds (env.clone info.flux) with
      | ok b =>
        rw [hscan] at h
        have hb : b = true := by simpa using h
        rw [hb] at hscan
        exact (cluster_has_git_creds_ok_true_iff _).mp hscan
      | error e =>
        rw [hscan] at h
        simp at h
    · intro hall
      rw [hrun, (cluster_has_git_creds_ok_true_iff _).mpr hall]
  · intro hempty
    have h2 : (env.clone info.flux).secretNames = [] := by
      unfold Checkout.secretNames
      rw [hempty]
      rfl
    have h3 : cluster_has_git_creds (env.clone info.flux) = .ok true := by
      unfold cluster_has_git_creds
      rw [h2]
      rfl
    rw [hrun, h3]

theorem clusterStatus_ready_iff_credentialed_witness :
    (envW.checkAcl Edge.Perm.Clusters "cl" true = true) ∧
    (envW.getConfig Edge.App.Cluster "cl" = some cfgW) ∧
    ((((cluster_status envW "cl").run.1 = .ok (200, some true)) ↔
       (envW.clone cfgW.flux).allReposCredentialed) ∧
     ((envW.clone cfgW.flux).gitRepos = [] →
       (cluster_status envW "cl").run.1 = .ok (200, some true))) :=
  ⟨rfl, rfl, clusterStatus_ready_iff_credentialed envW "cl" cfgW rfl rfl⟩

/-- C2: an authorized `create_cluster` run records a trace that is
always a prefix of the full ordered call sequence (so a failed step
stops the saga before any later call), a successful run records
exactly that sequence, and the sequence's phases — ACL check, then
repository creation, then registry writes, then checkout
initialisation/commits, then push — are monotone. -/
theorem createCluster_strict_sequence (env : Env) (req : CreateReq)
    (hAcl : env.checkAcl Edge.Perm.Clusters UUIDs.Null false = true) :
    ((create_cluster env req).run.2 <+: createFullTrace env req) ∧
    (∀ a, (create_cluster env req).run.1 = .ok a →
      (create_cluster env req).run.2 = createFullTrace env req) ∧
    List.Sorted (· ≤ ·) ((createFullTrace env req).map phase) := by
  have h := (create_cluster_runsTo env req hAcl).run_ok
  exact ⟨h.2, fun a ha => (h.1 a ha).2, createFullTrace_phases_sorted env req⟩

theorem createCluster_strict_sequence_witness :
    (envW.checkAcl Edge.Perm.Clusters UUIDs.Null false = true) ∧
    (create_cluster envW reqW).run.2 = createFullTrace envW reqW :=
  ⟨rfl, (createCluster_strict_sequence envW reqW rfl).2.1
    (201, some ("uuid-cell1", "https://git.example/git/fplus-edge/cell1"))
    rfl⟩

/-- C3: when the Access Control check denies the request, each of the
four endpoints answers 403 and the recorded trace contains no
collaborator operation (repository, registry, checkout, discovery or
sealer call) — only the ACL check itself. -/
theorem unauthorized_403_no_side_effects (env : Env) (req : CreateReq)
    (c : String) (p : SecretParams) (q : List (String × String))
    (h1 : env.checkAcl Edge.Perm.Clusters UUIDs.Null false = false)
    (h2 : env.checkAcl Edge.Perm.Clusters c true = false)
    (h3 : env.checkAcl Edge.Perm.Secrets p.cluster true = false) :
    ((create_cluster env req).run.1 = .ok (403, none) ∧
      (create_cluster env req).run.2.filter isCollabCall = []) ∧
    ((cluster_status env c).run.1 = .ok (403, none) ∧
      (cluster_status env c).run.2.filter isCollabCall = []) ∧
    ((seal_secret env p q).run.1 = .ok 403 ∧
      (seal_secret env p q).run.2.filter isCollabCall = []) ∧
    ((delete_sealed_secret env p q).run.1 = .ok 403 ∧
      (delete_sealed_secret env p q).run.2.filter isCollabCall = []) := by
  have e1 := create_cluster_run_denied env req h1
  have e2 := cluster_status_run_denied env c h2
  have e3 := seal_secret_run_denied env p q h3
  have e4 := delete_sealed_secret_run_denied env p q h3
  refine ⟨⟨?_, ?_⟩, ⟨?_, ?_⟩, ⟨?_, ?_⟩, ⟨?_, ?_⟩⟩
  · rw [e1]
  · rw [e1]; rfl
  · rw [e2]
  · rw [e2]; rfl
  · rw [e3]
  · rw [e3]; rfl
  · rw [e4]
  · rw [e4]; rfl

theorem unauthorized_403_no_side_effects_witness :
    (envDenied.checkAcl Edge.Perm.Clusters UUIDs.Null false = false) ∧
    ((create_cluster envDenied reqW).run.1 = .ok (403, none) ∧
      (create_cluster envDenied reqW).run.2.filter isCollabCall = []) ∧
    ((cluster_status envDenied "cl").run.1 = .ok (403, none) ∧
      (cluster_status envDenied "cl").run.2.filter isCollabCall = []) ∧
    ((seal_secret envDenied pW qW).run.1 = .ok 403 ∧
      (seal_secret envDenied pW qW).run.2.filter isCollabCall = []) ∧
    ((delete_sealed_secret envDenied pW qW).run.1 = .ok 403 ∧
      (delete_sealed_secret envDenied pW qW).run.2.filter isCollabCall = []) :=
  ⟨rfl, unauthorized_403_no_side_effects envDenied reqW "cl" pW qW rfl rfl rfl⟩

/-- C6: `create_repo` throws a value carrying the Git service's
upstream status code whenever the service answers anything other than
200, otherwise returns the created repository record; on a successful
authorized run the record's `url` is the `flux` URL of the 201
response. -/
theorem createRepo_error_carries_status (env : Env) (name : String)
    (req : CreateReq) :
    (env.gitStatus ≠ 200 →
      (create_repo env name).run =
        (.error ("Git: cannot create repo " ++ (env.group ++ "/" ++ name) ++ ": " ++
           toString env.gitStatus),
         [.createRepoCall ("/git/" ++ (env.group ++ "/" ++ name))])) ∧
    (env.gitStatus = 200 →
      (create_repo env name).run =
        (.ok env.gitRepo, [.createRepoCall ("/git/" ++ (env.group ++ "/" ++ name))])) ∧
    (env.checkAcl Edge.Perm.Clusters UUIDs.Null false = true →
      ∀ a, (create_cluster env req).run.1 = .ok a →
        a = (201, some (env.newUuid, env.gitRepo.url))) := by
  refine ⟨?_, ?_, ?_⟩
  · intro h
    unfold create_repo
    rw [M.run_def]
    simp [M.bind_eq, M.emit_eq, M.throwE_eq, h]
  · intro h
    unfold create_repo
    rw [M.run_def]
    simp [M.bind_eq, M.emit_eq, M.pure_eq, h]
  · intro hAcl a ha
    exact ((create_cluster_runsTo env req hAcl).run_ok.1 a ha).1

theorem createRepo_error_carries_status_witness :
    (envBadGit.gitStatus ≠ 200) ∧
    ((create_repo envBadGit "cell1").run =
      (.error ("Git: cannot create repo " ++ (envBadGit.group ++ "/" ++ "cell1") ++
         ": " ++ toString envBadGit.gitStatus),
       [.createRepoCall ("/git/" ++ (envBadGit.group ++ "/" ++ "cell1"))])) ∧
    ((create_repo envW "cell1").run =
      (.ok envW.gitRepo, [.createRepoCall ("/git/" ++ (envW.group ++ "/" ++ "cell1"))])) :=
  ⟨by decide,
   (createRepo_error_carries_status envBadGit "cell1" reqW).1 (by decide),
   (createRepo_error_carries_status envW "cell1" reqW).2.1 rfl⟩

/-- C9: the readiness check is a pure read — its trace contains no
write event to repository or registry — and therefore idempotent: for
any world-update function fixed by read events, re-running
`cluster_status` after applying the first run's trace gives the same
result. -/
theorem clusterStatus_pure_read_idempotent (env : Env) (c : String) :
    (((cluster_status env c).run.2).all (fun e => !isWriteEvent e) = true) ∧
    (∀ upd : Env → Event → Env,
      (∀ en e, isWriteEvent e = false → upd en e = en) →
      (cluster_status (((cluster_status env c).run.2).foldl upd env) c).run =
        (cluster_status env c).run) := by
  refine ⟨cluster_status_trace_nonwrite env c, ?_⟩
  intro upd hupd
  rw [foldl_fix_of_nonwrite upd hupd _ env (cluster_status_trace_nonwrite env c)]

theorem clusterStatus_pure_read_idempotent_witness :
    (((cluster_status envW "cl").run.2).all (fun e => !isWriteEvent e) = true) ∧
    ((cluster_status (((cluster_status envW "cl").run.2).foldl
        (fun en _ => en) envW) "cl").run = (cluster_status envW "cl").run) :=
  ⟨(clusterStatus_pure_read_idempotent envW "cl").1,
   (clusterStatus_pure_read_idempotent envW "cl").2 (fun en _ => en)
     (fun _ _ _ => rfl)⟩

/-- C10: for both secret endpoints the `dryrun` flag handed to the
sealer is the presence of a `dryrun` key in the query string,
regardless of its value — `?dryrun=false` still enables dry-run, and
omitting the key is the only way to disable it. -/
theorem dryrun_key_presence_semantics (env : Env) (p : SecretParams)
    (q : List (String × String))
    (h : env.checkAcl Edge.Perm.Secrets p.cluster true = true) :
    ((seal_secret env p q).run.2 =
      [.checkAcl Edge.Perm.Secrets p.cluster true,
       .sealSecret p.cluster p.nspace p.name p.key (hasDryrun q)]) ∧
    ((delete_sealed_secret env p q).run.2 =
      [.checkAcl Edge.Perm.Secrets p.cluster true,
       .deleteSecret p.cluster p.nspace p.name p.key (hasDryrun q)]) ∧
    (hasDryrun q = true ↔ ∃ v, ("dryrun", v) ∈ q) := by
  refine ⟨seal_secret_run_trace env p q h, delete_sealed_secret_run_trace env p q h, ?_⟩
  unfold hasDryrun
  constructor
  · intro hc
    have hm : "dryrun" ∈ q.map Prod.fst := List.elem_iff.mp hc
    obtain ⟨x, hx, hx1⟩ := List.mem_map.mp hm
    obtain ⟨x1, x2⟩ := x
    exact ⟨x2, by rw [← hx1]; exact hx⟩
  · rintro ⟨v, hv⟩
    exact List.elem_iff.mpr (List.mem_map.mpr ⟨("dryrun", v), hv, rfl⟩)

theorem dryrun_key_presence_semantics_witness :
    (envW.checkAcl Edge.Perm.Secrets pW.cluster true = true) ∧
    (hasDryrun qW = true) ∧
    ((seal_secret envW pW qW).run.2 =
      [.checkAcl Edge.Perm.Secrets pW.cluster true,
       .sealSecret pW.cluster pW.nspace pW.name pW.key (hasDryrun qW)]) :=
  ⟨rfl, rfl, (dryrun_key_presence_semantics envW pW qW rfl).1⟩

/-- C4 counterexample: a SealedSecret whose `spec.encryptedData` is
absent makes the scan throw, and the TypeError propagates out of
`cluster_status` — no `{ready: false}` answer is produced. -/
theorem malformed_sealed_secret_throws_cex :
    (cluster_status envNoEnc "cl1").run.1 =
      .error "TypeError: cannot use in operator on undefined" := rfl

/-- C4 (amended): malformed GitRepository fields are absorbed by the
optional chain and the scan answers a boolean whenever every
referenced SealedSecret is absent or has both `spec` and
`spec.encryptedData`; a referenced SealedSecret lacking either makes
`cluster_status` propagate a thrown TypeError instead of returning
`ready = false`. -/
theorem readiness_scan_throw_behavior (env : Env) (c : String)
    (info : ClusterConfig)
    (hAcl : env.checkAcl Edge.Perm.Clusters c true = true)
    (hcfg : env.getConfig Edge.App.Cluster c = some info)
    (hwf : ∀ s ∈ (env.clone info.flux).secretNames,
      (env.clone info.flux).wfSealed s = true) :
    ∃ b, (cluster_status env c).run.1 = .ok (200, some b) := by
  obtain ⟨b, hb⟩ := checkAllSecrets_ok_of_wf (env.clone info.flux) _ hwf
  have hscan : cluster_has_git_creds (env.clone info.flux) = .ok b := hb
  exact ⟨b, by rw [cluster_status_run_eq env c info hAcl hcfg, hscan]⟩

theorem readiness_scan_throw_behavior_witness :
    (∀ s ∈ (envW.clone cfgW.flux).secretNames,
      (envW.clone cfgW.flux).wfSealed s = true) ∧
    ∃ b, (cluster_status envW "cl").run.1 = .ok (200, some b) :=
  ⟨by decide, readiness_scan_throw_behavior envW "cl" cfgW rfl rfl (by decide)⟩

/-- C5 counterexample: on the throwing scan path the trace records no
`dispose` at all, so the checkout is not "disposed exactly once on
every exit path". -/
theorem checkout_not_disposed_on_throw_cex :
    (cluster_status envNoSpec "cl2").run.1 =
      .error "TypeError: cannot read encryptedData of undefined" ∧
    ((cluster_status envNoSpec "cl2").run.2).count Event.dispose = 0 :=
  ⟨rfl, rfl⟩

/-- C5 (amended): with authorization granted and a config record
found, the checkout acquired by `cluster_status` is disposed exactly
once when the manifest scan returns a boolean, and zero times when
the scan throws — the source has no try/finally around the scan. -/
theorem checkout_dispose_paths (env : Env) (c : String) (info : ClusterConfig)
    (hAcl : env.checkAcl Edge.Perm.Clusters c true = true)
    (hcfg : env.getConfig Edge.App.Cluster c = some info) :
    (∀ b, cluster_has_git_creds (env.clone info.flux) = .ok b →
      ((cluster_status env c).run.2).count Event.dispose = 1) ∧
    (∀ e, cluster_has_git_creds (env.clone info.flux) = .error e →
      ((cluster_status env c).run.2).count Event.dispose = 0) := by
  have hrun := cluster_status_run_eq env c info hAcl hcfg
  constructor
  · intro b hb
    rw [hrun, hb]
    rfl
  · intro e he
    rw [hrun, he]
    rfl

theorem checkout_dispose_paths_witness :
    (cluster_has_git_creds (envW.clone cfgW.flux) = .ok true) ∧
    ((cluster_status envW "cl").run.2).count Event.dispose = 1 :=
  ⟨rfl, (checkout_dispose_paths envW "cl" cfgW rfl rfl).1 true rfl⟩

/-- C7: in a successful authorized run whose request carries a
`sources` list, the recorded trace shows the `op1flux-secrets` sealed
secret (key `username`, plaintext `op1flux/<name>`, in `flux-system`)
written before every source-manifest write and before the source
commit: the preceding calls contain no manifest write, and the
source segment consists exactly of manifest writes. -/
theorem sealed_secret_written_before_sources (env : Env) (req : CreateReq)
    (ss : List String) (hs : req.sources? = some ss)
    (hAcl : env.checkAcl Edge.Perm.Clusters UUIDs.Null false = true)
    (a : Nat × Option (String × String))
    (hok : (create_cluster env req).run.1 = .ok a) :
    ((create_cluster env req).run.2 =
      Event.checkAcl Edge.Perm.Clusters UUIDs.Null false ::
        createRepoTrace env req.name ++ objectsTrace env req env.gitRepo.url ++
        [Event.checkoutInit env.gitRepo.url,
         Event.writeFile "README.md" READMEtext,
         Event.commit "Add README.",
         Event.serviceUrl Git.Service.Git,
         Event.writeSealedSecret FLUX_NS "op1flux-secrets" "username"
           ("op1flux/" ++ req.name)] ++
        sourcesTrace env.gitBase ss ++
        [Event.commit "Written flux source manifests.", Event.push]) ∧
    (∀ e ∈ createRepoTrace env req.name ++ objectsTrace env req env.gitRepo.url,
      e.isManifestWrite = false) ∧
    (∀ e ∈ sourcesTrace env.gitBase ss, e.isManifestWrite = true) := by
  refine ⟨?_, ?_, sourcesTrace_manifestWrites env.gitBase ss⟩
  · have h := ((create_cluster_runsTo env req hAcl).run_ok.1 a hok).2
    rw [h]
    unfold createFullTrace popTrace linksTrace
    rw [hs]
    simp [createRepoTrace, objectsTrace, List.append_assoc]
  · intro e he
    rcases List.mem_append.mp he with h1 | h2
    · rcases h1 with _ | ⟨_, h⟩
      · rfl
      · cases h
    · rcases h2 with _ | ⟨_, (_ | ⟨_, (_ | ⟨_, h⟩)⟩)⟩
      · rfl
      · rfl
      · rfl
      · cases h

theorem sealed_secret_written_before_sources_witness :
    reqW.sources? = some ["org/repoA"] ∧
    (create_cluster envW reqW).run.2 =
      Event.checkAcl Edge.Perm.Clusters UUIDs.Null false ::
        createRepoTrace envW reqW.name ++ objectsTrace envW reqW envW.gitRepo.url ++
        [Event.checkoutInit envW.gitRepo.url,
         Event.writeFile "README.md" READMEtext,
         Event.commit "Add README.",
         Event.serviceUrl Git.Service.Git,
         Event.writeSealedSecret FLUX_NS "op1flux-secrets" "username"
           ("op1flux/" ++ reqW.name)] ++
        sourcesTrace envW.gitBase ["org/repoA"] ++
        [Event.commit "Written flux source manifests.", Event.push] :=
  ⟨rfl, (sealed_secret_written_before_sources envW reqW ["org/repoA"] rfl rfl
    (201, some ("uuid-cell1", "https://git.example/git/fplus-edge/cell1")) rfl).1⟩

/-- C8: for every entry of the request's sources, a successful
authorized run writes a GitRepository manifest whose name replaces the
source's "/" with "." and whose URL is the source resolved against
the Git service's base URL, together with a matching Kustomization
manifest referencing that source, both in `flux-system`; the source
`org/repoA` yields the manifest name `org.repoA`. -/
theorem source_manifest_pairs_written (env : Env) (req : CreateReq)
    (ss : List String) (hs : req.sources? = some ss)
    (hAcl : env.checkAcl Edge.Perm.Clusters UUIDs.Null false = true)
    (a : Nat × Option (String × String))
    (hok : (create_cluster env req).run.1 = .ok a) :
    (∀ s ∈ ss,
      Event.writeManifest (.gitRepoM FLUX_NS (jsReplaceFirst s "/" ".")
        (urlResolve env.gitBase s)) ∈ (create_cluster env req).run.2 ∧
      Event.writeManifest (.fluxKustM FLUX_NS (jsReplaceFirst s "/" ".")
        (jsReplaceFirst s "/" ".")) ∈ (create_cluster env req).run.2) ∧
    jsReplaceFirst "org/repoA" "/" "." = "org.repoA" := by
  have htr := ((create_cluster_runsTo env req hAcl).run_ok.1 a hok).2
  refine ⟨?_, by rfl⟩
  intro s hsm
  obtain ⟨h1, h2⟩ := sourcesTrace_mem_pair env.gitBase ss s hsm
  rw [htr]
  exact ⟨mem_createFullTrace_of_mem_sources env req ss hs h1,
         mem_createFullTrace_of_mem_sources env req ss hs h2⟩

theorem source_manifest_pairs_written_witness :
    (Event.writeManifest (.gitRepoM FLUX_NS (jsReplaceFirst "org/repoA" "/" ".")
       (urlResolve envW.gitBase "org/repoA")) ∈ (create_cluster envW reqW).run.2 ∧
     Event.writeManifest (.fluxKustM FLUX_NS (jsReplaceFirst "org/repoA" "/" ".")
       (jsReplaceFirst "org/repoA" "/" ".")) ∈ (create_cluster envW reqW).run.2) ∧
    jsReplaceFirst "org/repoA" "/" "." = "org.repoA" :=
  ⟨(source_manifest_pairs_written envW reqW ["org/repoA"] rfl rfl
     (201, some ("uuid-cell1", "https://git.example/git/fplus-edge/cell1")) rfl).1
     "org/repoA" (List.mem_cons_self _ _),
   (source_manifest_pairs_written envW reqW ["org/repoA"] rfl rfl
     (201, some ("uuid-cell1", "https://git.example/git/fplus-edge/cell1")) rfl).2⟩

